import Mathlib

/-!
Verification development for the context-ai-api RAG backend.

The definitions below are a shallow embedding of the TypeScript source:
pure functions become Lean functions, fallible code returns `Except String`,
SQL numerics and embedding coordinates are rationals, and external
collaborators (the pgvector cosine-distance operator, the embedding
provider, the generative model) are explicit function parameters.
-/

deriving instance DecidableEq for Except

namespace ContextAI

/-! ## String primitives

JS `String.prototype.trim` and whitespace splitting, implemented
structurally over the character list so that concrete runs reduce inside
the kernel. -/

/-- JS `text.trim()`: strip whitespace from both ends. -/
def strTrim (s : String) : String :=
  String.mk
    (((s.toList.dropWhile Char.isWhitespace).reverse.dropWhile
      Char.isWhitespace).reverse)

/-- Whitespace word-splitting (helper): accumulate the current word in
reverse, emitting completed words. -/
def splitWordsGo : List Char → List Char → List String
  | [], cur => if cur.isEmpty then [] else [String.mk cur.reverse]
  | c :: rest, cur =>
      if c.isWhitespace then
        if cur.isEmpty then splitWordsGo rest []
        else String.mk cur.reverse :: splitWordsGo rest []
      else splitWordsGo rest (c :: cur)

/-! ## Vector retrieval (KnowledgeRepository.vectorSearch, rag-query.flow) -/

/-- A persisted fragment row joined with its owning source
(`fragments f INNER JOIN knowledge_sources ks ON f.source_id = ks.id`),
as read by `KnowledgeRepository.vectorSearch`.  The stored pgvector column
is nullable, hence `Option`. -/
structure FragRow where
  id : String
  sourceSectorId : String
  content : String
  embedding : Option (List ℚ)
  position : Nat
  deriving Repr, DecidableEq

/-- Descending-similarity order of `ORDER BY similarity DESC`. -/
def simDesc (a b : FragRow × ℚ) : Prop := b.2 ≤ a.2

instance : DecidableRel simDesc :=
  fun a b => inferInstanceAs (Decidable (b.2 ≤ a.2))

instance : IsTotal (FragRow × ℚ) simDesc := ⟨fun a b => le_total b.2 a.2⟩

instance : IsTrans (FragRow × ℚ) simDesc := ⟨fun _ _ _ h1 h2 => le_trans h2 h1⟩

/-- The candidate set of the SQL query in `KnowledgeRepository.vectorSearch`
(before ordering and `LIMIT`): keep rows of the given sector whose
`embedding IS NOT NULL` and whose similarity `1 - (f.embedding <=> $1::vector)`
is at least the threshold.  The pgvector cosine-distance operator `<=>` is the
native operator of the backing store, passed in as `cosDist`. -/
def vectorCandidates (cosDist : List ℚ → List ℚ → ℚ) (db : List FragRow)
    (queryEmbedding : List ℚ) (sectorId : String) (threshold : ℚ) :
    List (FragRow × ℚ) :=
  db.filterMap fun r =>
    match r.embedding with
    | none => none
    | some v =>
        if r.sourceSectorId = sectorId then
          if threshold ≤ 1 - cosDist v queryEmbedding then
            some (r, 1 - cosDist v queryEmbedding)
          else none
        else none

/-- Default `limit` of `KnowledgeRepository.vectorSearch`. -/
def DEFAULT_VECTOR_SEARCH_LIMIT : Nat := 5

/-- Default `similarityThreshold` of `KnowledgeRepository.vectorSearch`. -/
def DEFAULT_SIMILARITY_THRESHOLD : ℚ := 7/10

/-- Embeds `KnowledgeRepository.vectorSearch(embedding, sectorId, limit, threshold)`:
filter candidates, order by similarity descending, cap at `limit`. -/
def vectorSearch (cosDist : List ℚ → List ℚ → ℚ) (db : List FragRow)
    (queryEmbedding : List ℚ) (sectorId : String) (lim : Nat) (threshold : ℚ) :
    List (FragRow × ℚ) :=
  (List.insertionSort simDesc
    (vectorCandidates cosDist db queryEmbedding sectorId threshold)).take lim

/-- The `vectorSearchFn` wrapper built in the `useFactory` of `InteractionModule`:
it forwards the embedding, sector and limit to
`knowledgeRepository.vectorSearch` but omits the threshold argument, so the
repository default `DEFAULT_SIMILARITY_THRESHOLD = 0.7` applies. -/
def vectorSearchFn (cosDist : List ℚ → List ℚ → ℚ) (db : List FragRow)
    (queryEmbedding : List ℚ) (sectorId : String) (lim : Nat) :
    List (FragRow × ℚ) :=
  vectorSearch cosDist db queryEmbedding sectorId lim DEFAULT_SIMILARITY_THRESHOLD

/-- Retrieval portion of `executeQuery` in `rag-query.flow.ts`: call the
injected `vectorSearch` wrapper with `maxResults`, then filter the returned
fragments in memory by `f.similarity >= validatedInput.minSimilarity`. -/
def ragRetrieve (cosDist : List ℚ → List ℚ → ℚ) (db : List FragRow)
    (queryEmbedding : List ℚ) (sectorId : String) (maxResults : Nat)
    (minSimilarity : ℚ) : List (FragRow × ℚ) :=
  (vectorSearchFn cosDist db queryEmbedding sectorId maxResults).filter
    (fun f => decide (minSimilarity ≤ f.2))

/-- Definition following the specification wording for the retrieval result:
the highest-similarity fragments of the tenant scope whose similarity is
at least `minSimilarity`, capped at `maxResults`. -/
def specRetrievalSet (cosDist : List ℚ → List ℚ → ℚ) (db : List FragRow)
    (queryEmbedding : List ℚ) (sectorId : String) (maxResults : Nat)
    (minSimilarity : ℚ) : List (FragRow × ℚ) :=
  (List.insertionSort simDesc
    (vectorCandidates cosDist db queryEmbedding sectorId minSimilarity)).take
    maxResults

/-- Output of `executeQuery` restricted to the fields the claims mention,
plus a flag recording whether `ai.generate` was invoked. -/
structure RagOutput where
  response : String
  sources : List (FragRow × ℚ)
  generativeCalled : Bool
  deriving Repr, DecidableEq

/-- Embeds `FALLBACK_RESPONSE` of `rag-query.flow.ts`. -/
def FALLBACK_RESPONSE : String :=
  "I don\x27t have information about that in the current documentation. Please contact HR or your manager for more specific guidance."

/-- Embeds `buildPrompt` of `rag-query.flow.ts`: numbered excerpts of the retrieved
fragments, or a fixed line when there are none, wrapped in the fixed framing. -/
def buildPrompt (query : String) (fragments : List (FragRow × ℚ)) : String :=
  let context :=
    if fragments.length > 0 then
      String.intercalate "\n\n"
        ((List.range fragments.length).zip fragments |>.map
          (fun p => "[" ++ toString (p.1 + 1) ++ "] " ++ p.2.1.content))
    else "No relevant documentation found."
  "You are an onboarding assistant for the company. Your role is to help employees understand company policies, procedures, and guidelines.\n\nIMPORTANT INSTRUCTIONS:\n- Answer ONLY based on the provided documentation context below\n- If the context doesn\x27t contain the answer, say: \"I don\x27t have information about that in the current documentation.\"\n- Be concise and clear in your response\n- Reference the documentation sources when applicable\n- Use a friendly, professional tone\n\nDOCUMENTATION CONTEXT:\n" ++ context ++ "\n\nUSER QUESTION:\n" ++ query ++ "\n\nANSWER:"

/-- Embeds `executeQuery` of `rag-query.flow.ts` after input validation and query
embedding (the query embedding is an argument; `ai.generate` on the built
prompt is the external `genText`).  Zero relevant fragments short-circuit to
the fallback response with empty sources and no generative call. -/
def ragExecuteQuery (cosDist : List ℚ → List ℚ → ℚ) (db : List FragRow)
    (genText : String → String) (queryEmbedding : List ℚ) (query : String)
    (sectorId : String) (maxResults : Nat) (minSimilarity : ℚ) : RagOutput :=
  if (ragRetrieve cosDist db queryEmbedding sectorId maxResults
      minSimilarity).isEmpty then
    { response := FALLBACK_RESPONSE, sources := [], generativeCalled := false }
  else
    { response := genText (buildPrompt query
        (ragRetrieve cosDist db queryEmbedding sectorId maxResults minSimilarity)),
      sources := ragRetrieve cosDist db queryEmbedding sectorId maxResults
        minSimilarity,
      generativeCalled := true }

/-! ## Fragment entity (fragment.entity.ts) -/

/-- Embeds `Fragment.VALID_DIMENSIONS` of the Fragment entity: the only embedding
lengths its validation accepts. -/
def VALID_DIMENSIONS : List Nat := [768, 1536]

/-- Fields of the Fragment domain entity used by the claims.  `embedding` is
an `Option` because `FragmentMapper.toDomain` can put `null` there after
construction (see `fragmentToDomain`); the constructor itself always stores
an actual vector. -/
structure FragmentEnt where
  id : Option String
  sourceId : String
  content : String
  position : Int
  embedding : Option (List ℚ)
  deriving Repr, DecidableEq

/-- Embeds `Fragment.validateEmbeddingDimension`: rejects vectors whose length is
not in `VALID_DIMENSIONS`. -/
def validateEmbeddingDimension (embedding : List ℚ) : Except String Unit :=
  if (embedding.length ∈ VALID_DIMENSIONS : Bool) then .ok ()
  else .error "Embedding must be 768 or 1536 dimensions"

/-- Embeds `Fragment.validate`: the constructor-time validation of the entity.
The `embedding` argument is `Option` to model a JS `null`/`undefined`
argument. -/
def fragmentValidate (sourceId content : String) (position : Int)
    (embedding : Option (List ℚ)) : Except String Unit :=
  if strTrim sourceId = "" then .error "SourceId cannot be empty"
  else if strTrim content = "" then .error "Content cannot be empty"
  else if content.length < 10 then
    .error "Content must be at least 10 characters long"
  else if position < 0 then .error "Position cannot be negative"
  else match embedding with
  | none => .error "Embedding cannot be null or undefined"
  | some v =>
      if v.length = 0 then .error "Embedding array cannot be empty"
      else validateEmbeddingDimension v

/-- The Fragment constructor: validate, then store the fields
(`id` is only assigned on persistence). -/
def fragmentCreate (sourceId content : String) (position : Int)
    (embedding : Option (List ℚ)) : Except String FragmentEnt :=
  fragmentValidate sourceId content position embedding >>= fun _ =>
  .ok { id := none, sourceId := sourceId, content := content,
        position := position, embedding := embedding }

/-- Embeds `Fragment.updateEmbedding`: re-validates only the dimension, then
replaces the vector. -/
def fragmentUpdateEmbedding (f : FragmentEnt) (newEmbedding : List ℚ) :
    Except String FragmentEnt :=
  validateEmbeddingDimension newEmbedding >>= fun _ =>
  .ok { f with embedding := some newEmbedding }

/-- The invariant the Fragment constructor establishes for the embedding:
present, non-empty and of a supported dimensionality. -/
def fragmentCtorInvariant (f : FragmentEnt) : Prop :=
  ∃ v, f.embedding = some v ∧ v.length ≠ 0 ∧ v.length ∈ VALID_DIMENSIONS

/-! ## Fragment persistence mapping (fragment.mapper.ts, knowledge.repository.ts) -/

/-- A persisted `fragments` row as seen by `FragmentMapper.toDomain`.  The
`embedding` column is the parsed pgvector value (`parseEmbedding` of a
`NULL` column is `null`, hence `Option`; the string serialization itself is
mechanical). -/
structure FragModel where
  id : String
  sourceId : String
  content : String
  embedding : Option (List ℚ)
  position : Int
  deriving Repr, DecidableEq

/-- Embeds `DEFAULT_EMBEDDING_DIMENSION` of `FragmentMapper`. -/
def DEFAULT_EMBEDDING_DIMENSION : Nat := 768

/-- Embeds `FragmentMapper.toDomain`: when the stored embedding is `null`, the
mapper constructs the entity with a temporary all-zero vector of dimension
768 (so the constructor validation passes) and afterwards sets the
`embedding` field back to `null` via `Reflect.set`, and sets the persisted
`id`. -/
def fragmentToDomain (m : FragModel) : Except String FragmentEnt :=
  fragmentCreate m.sourceId m.content m.position
    (some (m.embedding.getD
      (List.replicate DEFAULT_EMBEDDING_DIMENSION (0 : ℚ)))) >>= fun frag =>
  match m.embedding with
  | none => .ok { frag with id := some m.id, embedding := none }
  | some _ => .ok { frag with id := some m.id }

/-- Embeds `KnowledgeRepository.findFragmentById`: look the row up and map it to
the domain entity through `FragmentMapper.toDomain`. -/
def findFragmentById (db : List FragModel) (id : String) :
    Except String (Option FragmentEnt) :=
  match db.find? (fun m => m.id = id) with
  | none => .ok none
  | some m => (fragmentToDomain m).map some

/-! ## EmbeddingService (part_013 snapshot of embedding.service.ts) -/

/-- Embeds `SUPPORTED_DIMENSIONS` of the `EmbeddingService` configuration:
768 (legacy), 1536 (OpenAI-compatible) and 3072 (gemini-embedding-001,
the default). -/
def SUPPORTED_DIMENSIONS : List Nat := [768, 1536, 3072]

/-- Embeds `DEFAULT_EMBEDDING_DIMENSIONS` of the `EmbeddingService`. -/
def DEFAULT_EMBEDDING_DIMENSIONS : Nat := 3072

/-- Embeds `DEFAULT_BATCH_SIZE` of the `EmbeddingService`. -/
def DEFAULT_BATCH_SIZE : Nat := 100

/-- Embeds `MAX_TOKEN_LIMIT * CHARS_PER_TOKEN_ESTIMATE = 2048 * 4`: character
ceiling used by `truncateText`. -/
def EMBEDDING_MAX_CHARS : Nat := 2048 * 4

/-- Embeds `EmbeddingService.validateConfig`: positive dimensions and batch size,
dimensions in the allow-list.  Dimensions are `Int` to keep the two
sign checks of the source meaningful. -/
def embeddingValidateConfig (dimensions batchSize : Int) : Except String Unit :=
  if dimensions ≤ 0 then .error "Dimensions must be a positive number"
  else if batchSize ≤ 0 then .error "Batch size must be a positive number"
  else if (dimensions.toNat ∈ SUPPORTED_DIMENSIONS : Bool) then .ok ()
  else .error "Invalid dimensions. Supported dimensions: 768, 1536, 3072"

/-- Embeds `EmbeddingService.validateInput` for a single text (the JS
null/undefined check has no counterpart for a total `String`): empty after
trim is rejected. -/
def embeddingValidateInput (text : String) : Except String Unit :=
  if strTrim text = "" then .error "Text cannot be empty" else .ok ()

/-- Embeds `EmbeddingService.truncateText`: cap the text at
`MAX_TOKEN_LIMIT * CHARS_PER_TOKEN_ESTIMATE` characters. -/
def truncateText (text : String) : String :=
  if text.length ≤ EMBEDDING_MAX_CHARS then text
  else (text.toList.take EMBEDDING_MAX_CHARS).asString

/-- Embeds `EmbeddingService.generateEmbedding`: validate, truncate, then issue one
provider call (`ai.embed` with the configured model/dimensionality; the
provider, including the unwrapping of its response shape, is the external
`provider`).  The second component counts the underlying provider calls. -/
def generateEmbedding (provider : String → List ℚ) (text : String) :
    Except String (List ℚ × Nat) :=
  embeddingValidateInput text >>= fun _ =>
  .ok (provider (truncateText text), 1)

/-- Batch loop of `EmbeddingService.generateEmbeddings`: process the texts
in windows of `batchSize` (`texts.slice(i, i + batchSize)` per iteration),
mapping `generateEmbedding` over each window and concatenating in order.
Accumulates the provider-call count.  A `batchSize` of `0` would loop
forever in the JS source (the constructor rejects it); the model steps by
`max batchSize 1` and recurses structurally on a fuel bounded by the list
length, which the loop never exhausts. -/
def generateEmbeddingsGo (provider : String → List ℚ) (batchSize : Nat) :
    Nat → List String → Except String (List (List ℚ) × Nat)
  | _, [] => .ok ([], 0)
  | 0, _ :: _ => .ok ([], 0)
  | fuel + 1, t :: ts =>
    ((t :: ts).take batchSize).mapM (generateEmbedding provider) >>=
      fun results =>
    generateEmbeddingsGo provider batchSize fuel
        ((t :: ts).drop (max batchSize 1)) >>= fun rest =>
    .ok (results.map Prod.fst ++ rest.1, results.length + rest.2)

/-- Embeds `EmbeddingService.generateEmbeddings`: empty input returns an empty list
with no provider call; otherwise validate every text up front, then run the
batch loop. -/
def generateEmbeddings (provider : String → List ℚ) (batchSize : Nat)
    (texts : List String) : Except String (List (List ℚ) × Nat) :=
  if texts.isEmpty then .ok ([], 0)
  else
    texts.mapM embeddingValidateInput >>= fun _ =>
    generateEmbeddingsGo provider batchSize texts.length texts

/-! ## KnowledgeSource entity (knowledge-source.entity.ts) -/

/-- Fields of the KnowledgeSource aggregate used by the claims.  `status` is
the string union used by the entity. -/
structure KSource where
  id : Option String
  title : String
  sectorId : String
  sourceType : String
  content : String
  metadata : List (String × String)
  status : String
  errorMessage : Option String
  deriving Repr, DecidableEq

/-- Source kinds of the closed `SourceType` enumeration
(`@context-ai/shared`), as used by PDF/Markdown parsing. -/
def validSourceTypes : List String := ["PDF", "MARKDOWN"]

/-- Embeds `KnowledgeSource.MAX_TITLE_LENGTH`. -/
def MAX_TITLE_LENGTH : Nat := 255

/-- The KnowledgeSource constructor: validate, then start at `PENDING`. -/
def ksourceCreate (title sectorId sourceType content : String)
    (metadata : List (String × String)) : Except String KSource :=
  if strTrim title = "" then .error "Title cannot be empty"
  else if title.length > MAX_TITLE_LENGTH then
    .error "Title cannot exceed 255 characters"
  else if strTrim sectorId = "" then .error "SectorId cannot be empty"
  else if !(sourceType ∈ validSourceTypes : Bool) then
    .error "Invalid source type"
  else if strTrim content = "" then .error "Content cannot be empty"
  else
    .ok { id := none, title := title, sectorId := sectorId,
          sourceType := sourceType, content := content, metadata := metadata,
          status := "PENDING", errorMessage := none }

/-- Embeds `KnowledgeSource.ensureNotDeleted`. -/
def ensureNotDeleted (s : KSource) : Except String Unit :=
  if s.status = "DELETED" then .error "Cannot modify deleted source" else .ok ()

/-- Embeds `KnowledgeSource.markAsProcessing`: only checks that the source is not
deleted, then sets `PROCESSING`. -/
def markAsProcessing (s : KSource) : Except String KSource :=
  ensureNotDeleted s >>= fun _ =>
  .ok { s with status := "PROCESSING" }

/-- Embeds `KnowledgeSource.markAsCompleted`: requires the source to be
`PROCESSING` (and not deleted), then sets `COMPLETED`. -/
def markAsCompleted (s : KSource) : Except String KSource :=
  ensureNotDeleted s >>= fun _ =>
  if s.status ≠ "PROCESSING" then
    .error "Cannot mark as completed: source is not being processed"
  else .ok { s with status := "COMPLETED" }

/-- Embeds `KnowledgeSource.markAsFailed`: only checks that the source is not
deleted, then sets `FAILED` and records the message. -/
def markAsFailed (s : KSource) (errorMessage : String) : Except String KSource :=
  ensureNotDeleted s >>= fun _ =>
  .ok { s with status := "FAILED", errorMessage := some errorMessage }

/-- JS object-spread merge `{...old, ...new}` on a metadata association
list: keys of `new` override keys of `old`. -/
def mergeMetadata (old new : List (String × String)) : List (String × String) :=
  old.filter (fun p => !(new.any (fun q => q.1 = p.1))) ++ new

/-- Embeds `KnowledgeSource.updateMetadata`: only checks that the source is not
deleted, then merges. -/
def ksUpdateMetadata (s : KSource) (newMetadata : List (String × String)) :
    Except String KSource :=
  ensureNotDeleted s >>= fun _ =>
  .ok { s with metadata := mergeMetadata s.metadata newMetadata }

/-! ## Conversation and messages (message.entity.ts, conversation.entity.ts,
query-assistant.use-case.ts) -/

/-- Embeds `MessageRole`: the closed role union. -/
inductive Role where
  | user
  | assistant
  | system
  deriving Repr, DecidableEq

/-- Role label used by `formatForPrompt`: the JS expression
`role.charAt(0).toUpperCase() + role.slice(1)` evaluated on the three
enumeration values. -/
def roleLabel : Role → String
  | Role.user => "User"
  | Role.assistant => "Assistant"
  | Role.system => "System"

/-- A conversation message; the constructor stores `props.content.trim()`. -/
structure Msg where
  role : Role
  content : String
  deriving Repr, DecidableEq

/-- Content handling of the Message constructor (`this._content =
props.content.trim()`); construction also rejects empty content, which the
use case has already ruled out for the current query. -/
def mkMessage (role : Role) (content : String) : Msg :=
  { role := role, content := strTrim content }

/-- Embeds `Message.formatForPrompt`: `"<Role>: <content>"`. -/
def formatForPrompt (m : Msg) : String := roleLabel m.role ++ ": " ++ m.content

/-- Embeds the JS array join of the formatted lines with newline
separators. -/
def joinLines : List String → String
  | [] => ""
  | [s] => s
  | s :: rest => s ++ "\n" ++ joinLines rest

/-- Embeds `messages.slice(-maxMessages)`: the last `maxMessages` entries (all of
them when there are fewer).  The JS call site guards `maxMessages ?`, so a
`0` argument falls back to the whole list, matching `slice(-0) = slice(0)`. -/
def takeLast (n : Nat) (msgs : List Msg) : List Msg :=
  msgs.drop (msgs.length - n)

/-- Embeds `Conversation.getContextForPrompt(maxMessages)`: format the last
`maxMessages` messages and join them with newlines (a falsy `0` means all
messages). -/
def getContextForPrompt (msgs : List Msg) (maxMessages : Nat) : String :=
  joinLines
    ((if maxMessages = 0 then msgs else takeLast maxMessages msgs).map
      formatForPrompt)

/-- Embeds `DEFAULT_CONTEXT_MESSAGE_LIMIT` of `QueryAssistantUseCase`. -/
def DEFAULT_CONTEXT_MESSAGE_LIMIT : Nat := 10

/-- Embeds `QueryAssistantUseCase.buildContextualQuery`: raw query when the
conversation has no messages; otherwise the last-10-messages context
followed by `"\nUser: " + currentQuery` when the context string is truthy. -/
def buildContextualQuery (msgs : List Msg) (currentQuery : String) : String :=
  if msgs.isEmpty then currentQuery
  else if getContextForPrompt msgs DEFAULT_CONTEXT_MESSAGE_LIMIT ≠ "" then
    getContextForPrompt msgs DEFAULT_CONTEXT_MESSAGE_LIMIT ++ "\nUser: " ++
      currentQuery
  else currentQuery

/-- The slice of `QueryAssistantUseCase.execute` that produces the string
handed to the embedding step: the new user message is appended to the
conversation FIRST (step 2), and only then is the contextual query built
from the conversation (step 3). -/
def executeContextualQuery (priorMessages : List Msg) (query : String) : String :=
  buildContextualQuery (priorMessages ++ [mkMessage Role.user query]) query

/-! ## Text chunking (ChunkingService) -/

/-- Modelled from the spec: the `ChunkingService` implementation file is
absent from the snapshot (only its unit-test spec exists), so the chunker is
modelled from specification section 4.1 and the test expectations.
Configuration of the chunker. -/
structure ChunkConfig where
  chunkSize : Nat
  overlap : Nat
  minChunkSize : Nat
  deriving Repr, DecidableEq

/-- Modelled from the spec: construction fails fast if `overlap ≥ chunkSize`
or `minChunkSize ≥ chunkSize` (error texts from the unit-test spec). -/
def chunkingValidateConfig (c : ChunkConfig) : Except String Unit :=
  if c.overlap ≥ c.chunkSize then .error "Overlap must be less than chunk size"
  else if c.minChunkSize ≥ c.chunkSize then
    .error "Chunk size must be greater than min chunk size"
  else .ok ()

/-- Modelled from the spec: token estimate for a whitespace word count at
the ~0.75 words-per-token ratio (1.3 tokens per word, the ratio the
unit-test spec states: 10 words ≈ 13 tokens). -/
def estimateTokensOfWords (wordCount : Nat) : Nat := 13 * wordCount / 10

/-- Largest word count whose token estimate fits within `chunkSize`
(`13 * w / 10 ≤ s` iff `w ≤ (10 * s + 9) / 13`). -/
def wordsThatFit (chunkSize : Nat) : Nat := (10 * chunkSize + 9) / 13

/-- Number of trailing words worth `overlap` tokens, seeding the next
window. -/
def overlapWords (overlap : Nat) : Nat := 10 * overlap / 13

/-- A produced chunk: content, zero-based position, token estimate. -/
structure TextChunk where
  content : String
  position : Nat
  tokens : Nat
  deriving Repr, DecidableEq

/-- Modelled from the spec: the sliding window over the word list.  Each
step emits the largest window whose token estimate fits `chunkSize` (at
least one word), then restarts `overlapWords` words before the window
end.  For a valid configuration the retreat is strictly smaller than the
window; the recursion is structural on a fuel bounded by the word count,
which the loop never exhausts, and the `max _ 1` step keeps the advance
positive even for invalid configurations. -/
def chunkWindowsGo (cfg : ChunkConfig) : Nat → List String → List (List String)
  | _, [] => []
  | 0, _ :: _ => []
  | fuel + 1, w :: ws =>
    let fit := max (wordsThatFit cfg.chunkSize) 1
    if (w :: ws).length ≤ fit then [w :: ws]
    else
      (w :: ws).take fit ::
        chunkWindowsGo cfg fuel
          ((w :: ws).drop (max (fit - overlapWords cfg.overlap) 1))

/-- The sliding window of the chunker over the full word list. -/
def chunkWindows (cfg : ChunkConfig) (ws : List String) : List (List String) :=
  chunkWindowsGo cfg ws.length ws

/-- Whitespace word-splitting used for tokenization. -/
def splitWords (text : String) : List String :=
  splitWordsGo text.toList []

/-- Reassemble the window content from its words, with single spaces
between words as the JS single-space join would produce. -/
def joinWords : List String → String
  | [] => ""
  | [w] => w
  | w :: rest => w ++ " " ++ joinWords rest

/-- Number the windows in emission order, producing the chunk records. -/
def mkChunks : List (List String) → Nat → List TextChunk
  | [], _ => []
  | w :: rest, i =>
      { content := joinWords w, position := i,
        tokens := estimateTokensOfWords w.length } :: mkChunks rest (i + 1)

/-- Modelled from the spec: `ChunkingService.chunk` — reject empty or
whitespace-only input (no words), then emit the sliding-window chunks with
zero-based positions. -/
def chunkText (cfg : ChunkConfig) (text : String) : Except String (List TextChunk) :=
  let ws := splitWords text
  if ws.isEmpty then .error "Text cannot be empty"
  else .ok (mkChunks (chunkWindows cfg ws) 0)

/-! ## Ingestion pipeline (ingest-document.use-case.ts) -/

/-- The ingestion request DTO. -/
structure IngestDto where
  title : String
  sectorId : String
  sourceType : String
  bufferLength : Nat
  metadata : List (String × String)
  deriving Repr, DecidableEq

/-- Outcomes of the external collaborators and of the persistence calls for
one ingestion run: the parser result, the chunking-service result, the
batch-embedding result, the fragment bulk save, the two source saves, and
the id the first save assigns. -/
structure IngestEnv where
  parseResult : Except String (String × List (String × String))
  chunkResult : Except String (List TextChunk)
  embedResult : Except String (List (List ℚ))
  saveFragmentsResult : Except String Unit
  saveSource1Result : Except String Unit
  saveSource2Result : Except String Unit
  assignedId : Option String

/-- Summary returned on success. -/
structure IngestResult where
  sourceId : String
  title : String
  fragmentCount : Nat
  status : String
  deriving Repr, DecidableEq

/-- Embeds `IngestDocumentUseCase.validateInput`. -/
def ingestValidateInput (dto : IngestDto) : Except String Unit :=
  if strTrim dto.title = "" then .error "Title cannot be empty"
  else if strTrim dto.sectorId = "" then .error "SectorId cannot be empty"
  else if dto.bufferLength = 0 then .error "Buffer cannot be empty"
  else if dto.sourceType = "" then .error "SourceType is required"
  else .ok ()

/-- Fragment construction step of `execute`, one chunk at position
`index` at a time: pair the chunk with `embeddings[index]` (a JS out-of-range index
yields `undefined`, which the Fragment constructor rejects as a null
embedding). -/
def buildFragmentsGo (sourceId : String) (embeddings : List (List ℚ)) :
    List TextChunk → Nat → Except String (List FragmentEnt)
  | [], _ => .ok []
  | chunk :: rest, index => do
    let f ← fragmentCreate sourceId chunk.content (Int.ofNat chunk.position)
      (embeddings.get? index)
    let fs ← buildFragmentsGo sourceId embeddings rest (index + 1)
    .ok (f :: fs)

/-- Embeds `chunks.map((chunk, index) => new Fragment({...}))` of `execute`. -/
def buildFragments (sourceId : String) (chunks : List TextChunk)
    (embeddings : List (List ℚ)) : Except String (List FragmentEnt) :=
  buildFragmentsGo sourceId embeddings chunks 0

/-- Embeds `IngestDocumentUseCase.execute`: the strictly ordered steps of the use
case, threading the durably persisted source record (`Option KSource`,
`none` until the first successful save).  The surrounding `try/catch` only
logs and re-throws, so an error propagates with the persisted state exactly
as the failing step left it. -/
def ingestExecute (dto : IngestDto) (env : IngestEnv) :
    Except String IngestResult × Option KSource :=
  let run : StateM (Option KSource) (Except String IngestResult) := do
    match (do
      ingestValidateInput dto
      env.parseResult : Except String (String × List (String × String))) with
    | .error e => return .error e
    | .ok parsed =>
      match (do
        let source ← ksourceCreate dto.title dto.sectorId dto.sourceType
          parsed.1 (mergeMetadata dto.metadata parsed.2)
        markAsProcessing source : Except String KSource) with
      | .error e => return .error e
      | .ok processing =>
        match env.saveSource1Result with
        | .error e => return .error e
        | .ok _ =>
          let savedSource := { processing with id := env.assignedId }
          set (some savedSource)
          match env.assignedId with
          | none => return .error "Failed to save knowledge source: ID not generated"
          | some sid =>
            match (do
              let chunks ← env.chunkResult
              let embeddings ← env.embedResult
              let fragments ← buildFragments sid chunks embeddings
              env.saveFragmentsResult
              let completed ← markAsCompleted savedSource
              pure (chunks, fragments, completed) :
                Except String (List TextChunk × List FragmentEnt × KSource)) with
            | .error e => return .error e
            | .ok (_, fragments, completed) =>
              match env.saveSource2Result with
              | .error e => return .error e
              | .ok _ =>
                set (some completed)
                return .ok { sourceId := sid, title := savedSource.title,
                             fragmentCount := fragments.length,
                             status := "COMPLETED" }
  (run.run none : Except String IngestResult × Option KSource)

/-! ## Helper lemmas: Except reductions -/

@[simp]
theorem except_bind_error {ε α β : Type} (e : ε) (f : α → Except ε β) :
    (Except.error e >>= f) = Except.error e := rfl

@[simp]
theorem except_bind_ok {ε α β : Type} (a : α) (f : α → Except ε β) :
    (Except.ok a >>= f) = f a := rfl

@[simp]
theorem except_pure_bind {ε α β : Type} (a : α) (f : α → Except ε β) :
    ((pure a : Except ε α) >>= f) = f a := rfl

@[simp]
theorem except_isOk_ok {ε α : Type} (a : α) :
    (Except.ok a : Except ε α).isOk = true := rfl

@[simp]
theorem except_isOk_error {ε α : Type} (e : ε) :
    (Except.error e : Except ε α).isOk = false := rfl

/-! ## Helper lemmas: filtering sorted lists -/

section SortedFilter

variable {α : Type} {r : α → α → Prop} [DecidableRel r] [IsTotal α r]
variable [IsTrans α r] {p : α → Bool}

/-- If an upward-closed predicate fails at the head of a sorted list, it
fails on the whole tail. -/
theorem filter_tail_eq_nil_of_sorted
    (hcomp : ∀ a b, r a b → p b = true → p a = true) {y : α} {t : List α}
    (hs : List.Sorted r (y :: t)) (hy : p y = false) : t.filter p = [] := by
  refine List.filter_eq_nil_iff.mpr fun a ha hpa => ?_
  have := hcomp y a (List.rel_of_sorted_cons hs a ha) hpa
  simp [hy] at this

/-- Filtering by an upward-closed predicate commutes with ordered insertion
into a sorted list. -/
theorem filter_orderedInsert
    (hcomp : ∀ a b, r a b → p b = true → p a = true) (x : α) (l : List α)
    (hs : List.Sorted r l) :
    (List.orderedInsert r x l).filter p =
      if p x then List.orderedInsert r x (l.filter p) else l.filter p := by
  induction l with
  | nil => cases hpx : p x <;> simp [hpx]
  | cons y t ih =>
    by_cases hxy : r x y
    · rw [List.orderedInsert_of_le r t hxy]
      cases hpx : p x with
      | true =>
        cases hpy : p y with
        | true => simp [List.filter_cons, hpx, hpy, hxy]
        | false =>
          have ht : t.filter p = [] :=
            filter_tail_eq_nil_of_sorted hcomp hs hpy
          simp [List.filter_cons, hpx, hpy, ht]
      | false =>
        cases hpy : p y with
        | true => simp [List.filter_cons, hpx, hpy]
        | false => simp [List.filter_cons, hpx, hpy]
    · have hins : List.orderedInsert r x (y :: t) =
          y :: List.orderedInsert r x t := if_neg hxy
      rw [hins]
      have hst : List.Sorted r t := hs.of_cons
      cases hpy : p y with
      | true =>
        cases hpx : p x with
        | true =>
          have hrhs : List.orderedInsert r x (y :: t.filter p) =
              y :: List.orderedInsert r x (t.filter p) := if_neg hxy
          simp [List.filter_cons, hpy, hpx, hrhs, ih hst]
        | false => simp [List.filter_cons, hpy, hpx, ih hst]
      | false =>
        have hpx : p x = false := by
          rcases total_of r x y with h | h
          · exact absurd h hxy
          · cases hx : p x
            · rfl
            · exact absurd (hcomp y x h hx) (by simp [hpy])
        have ht : t.filter p = [] :=
          filter_tail_eq_nil_of_sorted hcomp hs hpy
        simp [List.filter_cons, hpy, hpx, ih hst, ht]

/-- Filtering by an upward-closed predicate commutes with insertion sort. -/
theorem filter_insertionSort
    (hcomp : ∀ a b, r a b → p b = true → p a = true) (l : List α) :
    (List.insertionSort r l).filter p = List.insertionSort r (l.filter p) := by
  induction l with
  | nil => simp
  | cons x t ih =>
    simp only [List.insertionSort]
    rw [filter_orderedInsert hcomp x _ (List.sorted_insertionSort r _), ih,
      List.filter_cons]
    cases hpx : p x <;> simp [hpx, List.insertionSort]

/-- Filtering by an upward-closed predicate commutes with `take` on a sorted
list. -/
theorem filter_take_of_sorted
    (hcomp : ∀ a b, r a b → p b = true → p a = true) (l : List α)
    (hs : List.Sorted r l) (k : Nat) :
    (l.take k).filter p = (l.filter p).take k := by
  induction l generalizing k with
  | nil => simp
  | cons y t ih =>
    cases k with
    | zero => simp
    | succ k =>
      rw [List.take_succ_cons]
      cases hpy : p y with
      | true => simp [List.filter_cons, hpy, ih hs.of_cons k]
      | false =>
        have ht : t.filter p = [] :=
          filter_tail_eq_nil_of_sorted hcomp hs hpy
        have htk : (t.take k).filter p = [] := by
          have hsub : List.Sublist ((t.take k).filter p) (t.filter p) :=
            (List.take_sublist k t).filter p
          rw [ht] at hsub
          exact List.sublist_nil.mp hsub
        simp [List.filter_cons, hpy, ht, htk]

end SortedFilter

/-- Narrowing the candidate set of `vectorSearch` by a second similarity
filter is the same as querying at the pointwise-max threshold. -/
theorem filter_vectorCandidates (cosDist : List ℚ → List ℚ → ℚ)
    (db : List FragRow) (queryEmbedding : List ℚ) (sectorId : String)
    (m t : ℚ) :
    (vectorCandidates cosDist db queryEmbedding sectorId t).filter
      (fun f => decide (m ≤ f.2)) =
    vectorCandidates cosDist db queryEmbedding sectorId (max m t) := by
  induction db with
  | nil => rfl
  | cons rrow rest ih =>
    simp only [vectorCandidates, List.filterMap_cons] at ih ⊢
    cases hremb : rrow.embedding with
    | none => simpa using ih
    | some v =>
      by_cases hsec : rrow.sourceSectorId = sectorId
      · by_cases hts : t ≤ 1 - cosDist v queryEmbedding
        · by_cases hms : m ≤ 1 - cosDist v queryEmbedding
          · have hmax : max m t ≤ 1 - cosDist v queryEmbedding :=
              max_le hms hts
            simp [hsec, hts, hms, hmax, List.filter_cons, ih]
          · have hmax : ¬ max m t ≤ 1 - cosDist v queryEmbedding := by
              intro hc
              exact hms (le_trans (le_max_left m t) hc)
            simp [hsec, hts, hms, hmax, List.filter_cons, ih]
        · have hmax : ¬ max m t ≤ 1 - cosDist v queryEmbedding := by
            intro hc
            exact hts (le_trans (le_max_right m t) hc)
          simp [hsec, hts, hmax, ih]
      · simp [hsec, ih]

/-- C2 (counterexample data): one stored fragment at similarity 1/2. -/
def c2Row : FragRow :=
  { id := "frag-1", sourceSectorId := "sector-1",
    content := "Vacation policy details", embedding := some [1], position := 0 }

/-- C2 (counterexample data): external cosine-distance operator putting the
stored fragment at distance 1/2 from every query. -/
def c2Cos : List ℚ → List ℚ → ℚ := fun _ _ => 1/2

/-- C2 is false as stated: with one in-scope fragment at similarity 1/2 and
caller minSimilarity 3/10 ≤ 0.7, the spec-described result contains the
fragment but the pipeline returns nothing — the repository was invoked
without a threshold, so its default 0.7 filtered the fragment out before
the in-memory minSimilarity filter ran. -/
theorem c2_counterexample :
    ragRetrieve c2Cos [c2Row] [1] "sector-1" 5 (3/10) = [] ∧
    specRetrievalSet c2Cos [c2Row] [1] "sector-1" 5 (3/10) = [(c2Row, 1/2)] ∧
    ragRetrieve c2Cos [c2Row] [1] "sector-1" 5 (3/10) ≠
      specRetrievalSet c2Cos [c2Row] [1] "sector-1" 5 (3/10) := by
  have e1 : ragRetrieve c2Cos [c2Row] [1] "sector-1" 5 (3/10) = [] := by
    rw [ragRetrieve, vectorSearchFn, vectorSearch, vectorCandidates]
    norm_num [c2Row, c2Cos, DEFAULT_SIMILARITY_THRESHOLD, List.filterMap_cons]
  have e2 : specRetrievalSet c2Cos [c2Row] [1] "sector-1" 5 (3/10) =
      [(c2Row, 1/2)] := by
    rw [specRetrievalSet, vectorCandidates]
    norm_num [c2Row, c2Cos, List.filterMap_cons, List.insertionSort]
  refine ⟨e1, e2, ?_⟩
  rw [e1, e2]
  simp

/-- C2 amended: the fragments returned for caller-supplied `minSimilarity`
are exactly those of a repository `vectorSearch` whose threshold is
`max minSimilarity 0.7` — the caller value is honored only above the
default threshold, and fragments with similarity in `[m, 0.7)` are never
returned. -/
theorem c2_amended_effective_threshold (cosDist : List ℚ → List ℚ → ℚ)
    (db : List FragRow) (queryEmbedding : List ℚ) (sectorId : String)
    (maxResults : Nat) (minSimilarity : ℚ) :
    ragRetrieve cosDist db queryEmbedding sectorId maxResults minSimilarity =
    vectorSearch cosDist db queryEmbedding sectorId maxResults
      (max minSimilarity DEFAULT_SIMILARITY_THRESHOLD) := by
  have hcomp : ∀ a b : FragRow × ℚ, simDesc a b →
      (fun f : FragRow × ℚ => decide (minSimilarity ≤ f.2)) b = true →
      (fun f : FragRow × ℚ => decide (minSimilarity ≤ f.2)) a = true := by
    intro a b hr hb
    simp only [decide_eq_true_eq] at hb ⊢
    exact le_trans hb hr
  unfold ragRetrieve vectorSearchFn vectorSearch
  rw [filter_take_of_sorted hcomp _ (List.sorted_insertionSort simDesc _)
    maxResults]
  rw [filter_insertionSort hcomp]
  rw [filter_vectorCandidates]

/-- C7: every fragment returned by `vectorSearch` belongs to the requested
sector, has a non-null stored embedding, and has similarity at least the
threshold; similarities are monotonically non-increasing along the result
sequence; and the result length never exceeds `limit`. -/
theorem c7_vectorSearch_sound (cosDist : List ℚ → List ℚ → ℚ)
    (db : List FragRow) (queryEmbedding : List ℚ) (sectorId : String)
    (lim : Nat) (threshold : ℚ) :
    ((vectorSearch cosDist db queryEmbedding sectorId lim threshold).all
      fun a => decide (a.1.sourceSectorId = sectorId) &&
        a.1.embedding.isSome && decide (threshold ≤ a.2)) = true ∧
    List.Pairwise (fun a b : FragRow × ℚ => b.2 ≤ a.2)
      (vectorSearch cosDist db queryEmbedding sectorId lim threshold) ∧
    (vectorSearch cosDist db queryEmbedding sectorId lim threshold).length ≤
      lim := by
  refine ⟨?_, ?_, ?_⟩
  · rw [List.all_eq_true]
    intro a ha
    have h1 : a ∈ vectorCandidates cosDist db queryEmbedding sectorId
        threshold := by
      have h2 := List.mem_of_mem_take ha
      rwa [List.mem_insertionSort] at h2
    rcases List.mem_filterMap.mp h1 with ⟨rrow, _, hf⟩
    cases hremb : rrow.embedding with
    | none => rw [hremb] at hf; exact absurd hf (by simp)
    | some v =>
      rw [hremb] at hf
      dsimp only at hf
      by_cases hsec : rrow.sourceSectorId = sectorId
      · by_cases hts : threshold ≤ 1 - cosDist v queryEmbedding
        · rw [if_pos hsec, if_pos hts] at hf
          cases hf
          simp [hsec, hremb, hts]
        · rw [if_pos hsec, if_neg hts] at hf
          exact absurd hf (by simp)
      · rw [if_neg hsec] at hf
        exact absurd hf (by simp)
  · have hsorted : List.Pairwise simDesc
        (List.insertionSort simDesc
          (vectorCandidates cosDist db queryEmbedding sectorId threshold)) :=
      List.sorted_insertionSort simDesc _
    exact hsorted.sublist (List.take_sublist _ _)
  · exact List.length_take_le _ _

/-! ## C5: fallback short-circuit -/

/-- C5: the generative model is invoked exactly when at least one fragment
passes the threshold filter; and when none does, the pipeline returns the
fixed fallback text with an empty sources array and no generative call. -/
theorem c5_fallback_no_generation (cosDist : List ℚ → List ℚ → ℚ)
    (db : List FragRow) (genText : String → String) (queryEmbedding : List ℚ)
    (query sectorId : String) (maxResults : Nat) (minSimilarity : ℚ) :
    (ragExecuteQuery cosDist db genText queryEmbedding query sectorId
        maxResults minSimilarity).generativeCalled =
      !(ragRetrieve cosDist db queryEmbedding sectorId maxResults
        minSimilarity).isEmpty ∧
    ((ragRetrieve cosDist db queryEmbedding sectorId maxResults
        minSimilarity).isEmpty = true →
      ragExecuteQuery cosDist db genText queryEmbedding query sectorId
        maxResults minSimilarity =
      { response := FALLBACK_RESPONSE, sources := [],
        generativeCalled := false }) := by
  constructor
  · cases h : (ragRetrieve cosDist db queryEmbedding sectorId maxResults
        minSimilarity).isEmpty <;>
      simp [ragExecuteQuery, h]
  · intro h
    simp [ragExecuteQuery, h]

/-- C5 witness data: an external cosine-distance operator. -/
def c5Cos : List ℚ → List ℚ → ℚ := fun _ _ => 0

/-- C5 witness data: a generative model stub. -/
def c5GenText : String → String := fun _ => "generated answer"

/-- C5 witness: on an empty knowledge base the retrieval is empty and the
pipeline returns the fallback output. -/
theorem c5_fallback_no_generation_witness :
    (ragRetrieve c5Cos [] [] "sector-1" 5 (7/10)).isEmpty = true ∧
    ragExecuteQuery c5Cos [] c5GenText [] "any question" "sector-1" 5
        (7/10) =
      { response := FALLBACK_RESPONSE, sources := [],
        generativeCalled := false } :=
  ⟨rfl, (c5_fallback_no_generation c5Cos [] c5GenText [] "any question"
    "sector-1" 5 (7/10)).2 rfl⟩

/-! ## C6: status transitions -/

/-- C6 counterexample data: a COMPLETED source. -/
def c6Completed : KSource :=
  { id := some "src-1", title := "Handbook", sectorId := "sector-1",
    sourceType := "PDF", content := "handbook content", metadata := [],
    status := "COMPLETED", errorMessage := none }

/-- C6 is false as stated: `markAsProcessing` accepts the backward
transition COMPLETED → PROCESSING, and `markAsFailed` accepts
PENDING → FAILED (skipping PROCESSING) — both outside the monotone order
the claim says every mutator rejects. -/
theorem c6_counterexample :
    markAsProcessing c6Completed =
      .ok { c6Completed with status := "PROCESSING" } ∧
    markAsFailed { c6Completed with status := "PENDING" } "boom" =
      .ok { c6Completed with
            status := "FAILED", errorMessage := some "boom" } := by
  exact ⟨rfl, rfl⟩

/-- C6 amended: only `markAsCompleted` enforces the monotone order (it
requires PROCESSING); `markAsProcessing`, `markAsFailed` and
`updateMetadata` accept any non-DELETED status; and on a DELETED source all
four mutators throw. -/
theorem c6_amended_transitions (s : KSource) (msg : String)
    (md : List (String × String)) :
    ((markAsProcessing s).isOk = true ↔ ¬ s.status = "DELETED") ∧
    ((markAsCompleted s).isOk = true ↔ s.status = "PROCESSING") ∧
    ((markAsFailed s msg).isOk = true ↔ ¬ s.status = "DELETED") ∧
    ((ksUpdateMetadata s md).isOk = true ↔ ¬ s.status = "DELETED") ∧
    (s.status = "DELETED" →
      markAsProcessing s = .error "Cannot modify deleted source" ∧
      markAsCompleted s = .error "Cannot modify deleted source" ∧
      markAsFailed s msg = .error "Cannot modify deleted source" ∧
      ksUpdateMetadata s md = .error "Cannot modify deleted source") := by
  by_cases hdel : s.status = "DELETED"
  · refine ⟨?_, ?_, ?_, ?_, ?_⟩ <;>
      simp [markAsProcessing, markAsCompleted, markAsFailed,
        ksUpdateMetadata, ensureNotDeleted, hdel]
  · by_cases hproc : s.status = "PROCESSING"
    · refine ⟨?_, ?_, ?_, ?_, ?_⟩ <;>
        simp [markAsProcessing, markAsCompleted, markAsFailed,
          ksUpdateMetadata, ensureNotDeleted, hdel, hproc]
    · refine ⟨?_, ?_, ?_, ?_, ?_⟩ <;>
        simp [markAsProcessing, markAsCompleted, markAsFailed,
          ksUpdateMetadata, ensureNotDeleted, hdel, hproc]

/-- C6 amended witness data: a DELETED source. -/
def c6Deleted : KSource :=
  { c6Completed with status := "DELETED" }

/-- C6 amended witness: on a DELETED source every mutator throws. -/
theorem c6_amended_transitions_witness :
    c6Deleted.status = "DELETED" ∧
    (markAsProcessing c6Deleted = .error "Cannot modify deleted source" ∧
     markAsCompleted c6Deleted = .error "Cannot modify deleted source" ∧
     markAsFailed c6Deleted "oops" = .error "Cannot modify deleted source" ∧
     ksUpdateMetadata c6Deleted [] = .error "Cannot modify deleted source") :=
  ⟨rfl, (c6_amended_transitions c6Deleted "oops" []).2.2.2.2 rfl⟩

/-! ## C1: failed ingestion leaves PROCESSING durable state -/

/-- C1 failing input: a valid ingestion request. -/
def c1Dto : IngestDto :=
  { title := "Test Document", sectorId := "sector-1", sourceType := "PDF",
    bufferLength := 10, metadata := [] }

/-- C1 failing input: parsing, source persistence and chunking succeed and
the persisted source receives an id, then the batch-embedding call throws
`API rate limit exceeded` (the same scenario as the use-case unit test
`should handle embedding generation errors`). -/
def c1Env : IngestEnv :=
  { parseResult := .ok ("Test content here ok", []),
    chunkResult := .ok [{ content := "Test content here ok", position := 0,
                          tokens := 4 }],
    embedResult := .error "API rate limit exceeded",
    saveFragmentsResult := .ok (),
    saveSource1Result := .ok (),
    saveSource2Result := .ok (),
    assignedId := some "source-1" }

/-- C1 evaluation at the failing input: the error is re-raised, but the
durably persisted source is left in PROCESSING with no error message — the
catch block of `execute` only logs and re-throws, never calling
`markAsFailed` or saving a FAILED record, contradicting the claim. -/
theorem c1_failed_ingestion_leaves_processing :
    (ingestExecute c1Dto c1Env).1 = .error "API rate limit exceeded" ∧
    (ingestExecute c1Dto c1Env).2 =
      some { id := some "source-1", title := "Test Document",
             sectorId := "sector-1", sourceType := "PDF",
             content := "Test content here ok", metadata := [],
             status := "PROCESSING", errorMessage := none } := by
  exact ⟨rfl, rfl⟩

/-! ## C3: contextual query duplication -/

/-- C3 is false as stated: for a conversation with no prior messages the
string passed to the embedding step is not the raw query — the user message
is appended before the context is built, so the query is duplicated. -/
theorem c3_counterexample :
    executeContextualQuery [] "Hello" ≠ "Hello" := by decide

/-- The empty string is a left identity of string append. -/
theorem strEmpty_append (s : String) : "" ++ s = s := by
  cases s
  rfl

/-- Append acts on the underlying character lists. -/
theorem strData_append (a b : String) : (a ++ b).data = a.data ++ b.data := by
  cases a
  cases b
  rfl

/-- Joining lines of a list ending in `s` yields a string of the shape
`pre ++ s`. -/
theorem joinLines_append_singleton (l : List String) (s : String) :
    ∃ pre, joinLines (l ++ [s]) = pre ++ s := by
  induction l with
  | nil => exact ⟨"", (strEmpty_append s).symm⟩
  | cons x rest ih =>
    rcases ih with ⟨p, hp⟩
    cases rest with
    | nil => exact ⟨x ++ "\n", rfl⟩
    | cons y t =>
      refine ⟨(x ++ "\n") ++ p, ?_⟩
      have hstep : joinLines ((x :: y :: t) ++ [s]) =
          (x ++ "\n") ++ joinLines ((y :: t) ++ [s]) := rfl
      rw [hstep, hp]
      exact (String.append_assoc _ _ _).symm

/-- The conversation context built after appending the current user message
ends in the formatted line of that message. -/
theorem getContextForPrompt_append_last (prior : List Msg) (m : Msg) :
    ∃ pre, getContextForPrompt (prior ++ [m]) DEFAULT_CONTEXT_MESSAGE_LIMIT =
      pre ++ formatForPrompt m := by
  unfold getContextForPrompt DEFAULT_CONTEXT_MESSAGE_LIMIT takeLast
  have h10 : (10 : Nat) ≠ 0 := by decide
  rw [if_neg h10]
  have hlen : (prior ++ [m]).length = prior.length + 1 := by simp
  rw [hlen]
  have hk : prior.length + 1 - 10 ≤ prior.length := by omega
  rw [List.drop_append_of_le_length hk, List.map_append]
  exact joinLines_append_singleton _ _

/-- The conversation context built after appending the current user message
is never the empty string. -/
theorem getContextForPrompt_append_last_ne_empty (prior : List Msg) (m : Msg) :
    getContextForPrompt (prior ++ [m]) DEFAULT_CONTEXT_MESSAGE_LIMIT ≠ "" := by
  rcases getContextForPrompt_append_last prior m with ⟨pre, hpre⟩
  rw [hpre]
  intro hc
  have hdata : (pre ++ formatForPrompt m).data = ("" : String).data := by
    rw [hc]
  rw [strData_append] at hdata
  have hfmt : (formatForPrompt m).data =
      ((roleLabel m.role).data ++ ": ".data) ++ m.content.data := by
    show ((roleLabel m.role ++ ": ") ++ m.content).data = _
    rw [strData_append, strData_append]
  rw [hfmt] at hdata
  simp [List.append_eq_nil] at hdata

/-- C3 amended: the string passed to the embedding step always equals the
formatted last ten messages of the conversation AFTER the current user
message has been appended, followed by `"\nUser: " ++ query` — so the
current query appears both as the final context line and as the appended
suffix (it is duplicated), at most nine prior messages are included, and
the raw-query branch for empty conversations is unreachable. -/
theorem c3_amended_contextual_query (priorMessages : List Msg)
    (query : String) :
    executeContextualQuery priorMessages query =
      getContextForPrompt (priorMessages ++ [mkMessage Role.user query])
        DEFAULT_CONTEXT_MESSAGE_LIMIT ++ "\nUser: " ++ query ∧
    ∃ ctx, executeContextualQuery priorMessages query =
      ctx ++ formatForPrompt (mkMessage Role.user query) ++
        ("\nUser: " ++ query) := by
  have hne : (priorMessages ++ [mkMessage Role.user query]).isEmpty =
      false := by simp
  have hctx := getContextForPrompt_append_last_ne_empty priorMessages
    (mkMessage Role.user query)
  have hmain : executeContextualQuery priorMessages query =
      getContextForPrompt (priorMessages ++ [mkMessage Role.user query])
        DEFAULT_CONTEXT_MESSAGE_LIMIT ++ "\nUser: " ++ query := by
    unfold executeContextualQuery buildContextualQuery
    rw [hne]
    simp only [Bool.false_eq_true, if_false]
    rw [if_pos hctx]
  refine ⟨hmain, ?_⟩
  rcases getContextForPrompt_append_last priorMessages
    (mkMessage Role.user query) with ⟨pre, hpre⟩
  refine ⟨pre, ?_⟩
  rw [hmain, hpre, String.append_assoc (pre ++ formatForPrompt
    (mkMessage Role.user query)) "\nUser: " query]

/-! ## C4: supported dimensionalities mismatch -/

/-- C4 auxiliary data: a Fragment holding a 768-dimensional embedding. -/
def c4Frag : FragmentEnt :=
  { id := none, sourceId := "source-1", content := "valid fragment content",
    position := 0, embedding := some (List.replicate 768 (0 : ℚ)) }

/-- C4 evaluation at the failing input: 3072 is a supported dimensionality
of the `EmbeddingService` configuration (its default, accepted by
`validateConfig`), yet constructing a Fragment with a 3072-dimensional
vector throws `Embedding must be 768 or 1536 dimensions`, and so does
`updateEmbedding` — contradicting the claim that construction succeeds for
every supported dimensionality. -/
theorem c4_fragment_rejects_supported_3072 :
    (3072 ∈ SUPPORTED_DIMENSIONS) ∧
    DEFAULT_EMBEDDING_DIMENSIONS = 3072 ∧
    embeddingValidateConfig 3072 100 = .ok () ∧
    fragmentCreate "source-1" "valid fragment content" 0
      (some (List.replicate 3072 (0 : ℚ))) =
      .error "Embedding must be 768 or 1536 dimensions" ∧
    fragmentUpdateEmbedding c4Frag (List.replicate 3072 (0 : ℚ)) =
      .error "Embedding must be 768 or 1536 dimensions" := by
  have hlen : (List.replicate 3072 (0 : ℚ)).length = 3072 :=
    List.length_replicate _ _
  have hdim : validateEmbeddingDimension (List.replicate 3072 (0 : ℚ)) =
      .error "Embedding must be 768 or 1536 dimensions" := by
    unfold validateEmbeddingDimension
    rw [hlen]
    rfl
  have hval : fragmentValidate "source-1" "valid fragment content" 0
      (some (List.replicate 3072 (0 : ℚ))) =
      .error "Embedding must be 768 or 1536 dimensions" := by
    unfold fragmentValidate
    rw [if_neg (show ¬ strTrim "source-1" = "" by decide),
      if_neg (show ¬ strTrim "valid fragment content" = "" by decide),
      if_neg (show ¬ ("valid fragment content" : String).length < 10 by decide),
      if_neg (show ¬ (0 : Int) < 0 by decide)]
    show (if (List.replicate 3072 (0 : ℚ)).length = 0 then
        (Except.error "Embedding array cannot be empty" : Except String Unit)
      else validateEmbeddingDimension (List.replicate 3072 (0 : ℚ))) = _
    rw [hlen, if_neg (show ¬ (3072 : Nat) = 0 by decide)]
    exact hdim
  refine ⟨by decide, rfl, by decide, ?_, ?_⟩
  · unfold fragmentCreate
    rw [hval]
    rfl
  · unfold fragmentUpdateEmbedding
    rw [hdim]
    rfl

/-! ## C8: batch embedding call count and ordering -/

/-- Embeds `mapM` over `Except` returns the pointwise results when every call
succeeds. -/
theorem mapM_ok_of_all {β : Type} (g : String → Except String β)
    (f : String → β) (l : List String) (h : ∀ t ∈ l, g t = .ok (f t)) :
    l.mapM g = .ok (l.map f) := by
  induction l with
  | nil => rfl
  | cons x xs ih =>
    rw [List.mapM_cons, h x (by simp),
      ih (fun t ht => h t (List.mem_cons_of_mem x ht))]
    rfl

/-- A single `generateEmbedding` succeeds on valid input with one provider
call. -/
theorem generateEmbedding_ok (provider : String → List ℚ) (t : String)
    (h : ¬ strTrim t = "") :
    generateEmbedding provider t = .ok (provider (truncateText t), 1) := by
  unfold generateEmbedding embeddingValidateInput
  rw [if_neg h]
  rfl

/-- The batch loop issues one provider call per text and returns vectors in
input order, for any positive batch size and sufficient fuel. -/
theorem generateEmbeddingsGo_ok (provider : String → List ℚ) (k : Nat)
    (hk : 0 < k) :
    ∀ (fuel : Nat) (ts : List String), ts.length ≤ fuel →
      (∀ t ∈ ts, ¬ strTrim t = "") →
      generateEmbeddingsGo provider k fuel ts =
        .ok (ts.map (fun t => provider (truncateText t)), ts.length) := by
  intro fuel
  induction fuel with
  | zero =>
    intro ts hlen _
    cases ts with
    | nil => rfl
    | cons t rest => simp at hlen
  | succ fuel ih =>
    intro ts hlen hv
    cases ts with
    | nil => rfl
    | cons t rest =>
      rw [generateEmbeddingsGo]
      have hbatch : ((t :: rest).take k).mapM (generateEmbedding provider) =
          .ok (((t :: rest).take k).map
            (fun s => (provider (truncateText s), 1))) :=
        mapM_ok_of_all _ _ _ (fun x hx =>
          generateEmbedding_ok provider x (hv x (List.mem_of_mem_take hx)))
      rw [hbatch]
      have hdrop_le : ((t :: rest).drop (max k 1)).length ≤ fuel := by
        have hm : 1 ≤ max k 1 := Nat.le_max_right k 1
        simp only [List.length_drop, List.length_cons]
        simp only [List.length_cons] at hlen
        omega
      have hdrop_v : ∀ x ∈ (t :: rest).drop (max k 1), ¬ strTrim x = "" :=
        fun x hx => hv x (List.mem_of_mem_drop hx)
      rw [except_bind_ok, ih _ hdrop_le hdrop_v, except_bind_ok]
      have hmax : max k 1 = k := Nat.max_eq_left hk
      rw [hmax]
      have hfst : (((t :: rest).take k).map
          (fun s => (provider (truncateText s), 1))).map Prod.fst =
          ((t :: rest).take k).map (fun s => provider (truncateText s)) := by
        rw [List.map_map]
        rfl
      have hlen2 : (((t :: rest).take k).map
          (fun s => (provider (truncateText s), 1))).length =
          ((t :: rest).take k).length := List.length_map _ _
      rw [hfst, hlen2, ← List.map_append, List.take_append_drop,
        ← List.length_append ((t :: rest).take k) ((t :: rest).drop k),
        List.take_append_drop]

/-- C8: for a list of valid texts and a positive batch size,
`generateEmbeddings` issues exactly one underlying provider call per text
and returns the vectors in input order (the second component counts
provider calls); in particular the empty list yields an empty result with
zero provider calls. -/
theorem c8_generateEmbeddings_calls (provider : String → List ℚ) (k : Nat)
    (texts : List String) (hk : 0 < k)
    (hv : ∀ t ∈ texts, ¬ strTrim t = "") :
    generateEmbeddings provider k texts =
      .ok (texts.map (fun t => provider (truncateText t)), texts.length) := by
  unfold generateEmbeddings
  cases texts with
  | nil => rfl
  | cons t rest =>
    rw [if_neg (by simp)]
    have hval : (t :: rest).mapM embeddingValidateInput =
        .ok ((t :: rest).map (fun _ => ())) :=
      mapM_ok_of_all _ _ _ (fun x hx => by
        unfold embeddingValidateInput
        rw [if_neg (hv x hx)])
    rw [hval, except_bind_ok]
    exact generateEmbeddingsGo_ok provider k hk _ _ le_rfl hv

/-- C8 witness data: a provider stub. -/
def c8Provider : String → List ℚ := fun _ => [1]

/-- C8 witness: three texts at batch size two. -/
theorem c8_generateEmbeddings_calls_witness :
    0 < 2 ∧ (∀ t ∈ ["alpha", "beta", "gamma"], ¬ strTrim t = "") ∧
    generateEmbeddings c8Provider 2 ["alpha", "beta", "gamma"] =
      .ok ((["alpha", "beta", "gamma"]).map
        (fun t => c8Provider (truncateText t)),
        (["alpha", "beta", "gamma"] : List String).length) :=
  ⟨by decide, by decide,
    c8_generateEmbeddings_calls c8Provider 2 ["alpha", "beta", "gamma"]
      (by decide) (by decide)⟩

/-! ## C9: null-embedding rows bypass the constructor invariant -/

/-- C9: a persisted row with a NULL embedding column loads (through
`FragmentMapper.toDomain` and `findFragmentById`) into a Fragment whose
`embedding` is `null`, even though direct construction with a null
embedding throws — the temporary-then-reset trick of the mapper produces
entities violating the constructor invariant. -/
theorem c9_null_embedding_bypasses_invariant (m : FragModel)
    (h1 : m.embedding = none) (h2 : ¬ strTrim m.sourceId = "")
    (h3 : ¬ strTrim m.content = "") (h4 : 10 ≤ m.content.length)
    (h5 : 0 ≤ m.position) :
    ∃ f, fragmentToDomain m = .ok f ∧ f.embedding = none ∧
      ¬ fragmentCtorInvariant f ∧
      findFragmentById [m] m.id = .ok (some f) ∧
      fragmentCreate m.sourceId m.content m.position none =
        .error "Embedding cannot be null or undefined" := by
  have h4' : ¬ m.content.length < 10 := by omega
  have h5' : ¬ m.position < 0 := by omega
  have hvalid : fragmentValidate m.sourceId m.content m.position
      (some (List.replicate DEFAULT_EMBEDDING_DIMENSION (0 : ℚ))) =
      .ok () := by
    unfold fragmentValidate
    rw [if_neg h2, if_neg h3, if_neg h4', if_neg h5']
    show (if (List.replicate DEFAULT_EMBEDDING_DIMENSION (0 : ℚ)).length = 0
        then (Except.error "Embedding array cannot be empty" :
          Except String Unit)
      else validateEmbeddingDimension
        (List.replicate DEFAULT_EMBEDDING_DIMENSION (0 : ℚ))) = _
    rw [List.length_replicate,
      if_neg (show ¬ DEFAULT_EMBEDDING_DIMENSION = 0 by decide)]
    unfold validateEmbeddingDimension
    rw [List.length_replicate]
    rfl
  have hvalidNone : fragmentValidate m.sourceId m.content m.position none =
      .error "Embedding cannot be null or undefined" := by
    unfold fragmentValidate
    rw [if_neg h2, if_neg h3, if_neg h4', if_neg h5']
  have hcreate : fragmentCreate m.sourceId m.content m.position
      (some (List.replicate DEFAULT_EMBEDDING_DIMENSION (0 : ℚ))) =
      .ok { id := none, sourceId := m.sourceId, content := m.content,
            position := m.position,
            embedding := some (List.replicate DEFAULT_EMBEDDING_DIMENSION
              (0 : ℚ)) } := by
    unfold fragmentCreate
    rw [hvalid]
    rfl
  have htoD : fragmentToDomain m =
      .ok { id := some m.id, sourceId := m.sourceId, content := m.content,
            position := m.position, embedding := none } := by
    unfold fragmentToDomain
    rw [h1]
    show fragmentCreate m.sourceId m.content m.position
        (some (List.replicate DEFAULT_EMBEDDING_DIMENSION (0 : ℚ))) >>= _ = _
    rw [hcreate, except_bind_ok]
  refine ⟨{ id := some m.id, sourceId := m.sourceId, content := m.content,
            position := m.position, embedding := none }, htoD, rfl, ?_, ?_, ?_⟩
  · rintro ⟨v, hv, _⟩
    simp at hv
  · unfold findFragmentById
    have hfind : ([m].find? (fun x => x.id = m.id)) = some m := by
      simp [List.find?]
    rw [hfind]
    show (fragmentToDomain m).map some = _
    rw [htoD]
    rfl
  · unfold fragmentCreate
    rw [hvalidNone]
    rfl

/-- C9 witness data: a persisted row with a NULL embedding column. -/
def c9Model : FragModel :=
  { id := "frag-9", sourceId := "source-9",
    content := "stored fragment content", embedding := none, position := 0 }

/-- C9 witness: the hypotheses hold for `c9Model` and the conclusion
follows. -/
theorem c9_null_embedding_bypasses_invariant_witness :
    (c9Model.embedding = none ∧ ¬ strTrim c9Model.sourceId = "" ∧
     ¬ strTrim c9Model.content = "" ∧ 10 ≤ c9Model.content.length ∧
     0 ≤ c9Model.position) ∧
    (∃ f, fragmentToDomain c9Model = .ok f ∧ f.embedding = none ∧
      ¬ fragmentCtorInvariant f ∧
      findFragmentById [c9Model] c9Model.id = .ok (some f) ∧
      fragmentCreate c9Model.sourceId c9Model.content c9Model.position none =
        .error "Embedding cannot be null or undefined") :=
  ⟨⟨rfl, by decide, by decide, by decide, by decide⟩,
    c9_null_embedding_bypasses_invariant c9Model rfl (by decide) (by decide)
      (by decide) (by decide)⟩

/-! ## C10: chunk positions and token bounds -/

/-- Embeds `dropLast` distributes over a cons with non-empty tail. -/
theorem dropLast_cons_ne {α : Type} (a : α) {l : List α} (h : l ≠ []) :
    (a :: l).dropLast = a :: l.dropLast := by
  cases l with
  | nil => exact absurd rfl h
  | cons b t => rfl

/-- A window of `wordsThatFit` words estimates to at most `chunkSize`
tokens. -/
theorem estimate_fit_le (S : Nat) :
    estimateTokensOfWords (wordsThatFit S) ≤ S := by
  unfold estimateTokensOfWords wordsThatFit
  omega

/-- A window of `wordsThatFit` words estimates to at least `chunkSize - 1`
tokens. -/
theorem estimate_fit_ge (S : Nat) :
    S - 1 ≤ estimateTokensOfWords (wordsThatFit S) := by
  unfold estimateTokensOfWords wordsThatFit
  omega

/-- For a positive chunk size at least one word fits. -/
theorem wordsThatFit_pos (S : Nat) (hS : 0 < S) : 0 < wordsThatFit S := by
  unfold wordsThatFit
  omega

/-- For a valid configuration the window retreat is strictly smaller than
the window. -/
theorem overlapWords_lt_fit {o S : Nat} (hov : o < S) :
    overlapWords o < wordsThatFit S := by
  unfold overlapWords wordsThatFit
  omega

/-- The sliding window loop never returns an empty window list on non-empty
input with sufficient fuel. -/
theorem chunkWindowsGo_ne_nil (cfg : ChunkConfig) :
    ∀ (fuel : Nat) (ws : List String), ws ≠ [] → ws.length ≤ fuel →
      chunkWindowsGo cfg fuel ws ≠ [] := by
  intro fuel ws hne hlen
  cases fuel with
  | zero =>
    cases ws with
    | nil => exact absurd rfl hne
    | cons x rest => simp at hlen
  | succ fuel =>
    cases ws with
    | nil => exact absurd rfl hne
    | cons x rest =>
      rw [chunkWindowsGo]
      by_cases hle : (x :: rest).length ≤ max (wordsThatFit cfg.chunkSize) 1
      · rw [if_pos hle]
        exact List.cons_ne_nil _ _
      · rw [if_neg hle]
        exact List.cons_ne_nil _ _

/-- Every non-final window produced by the sliding window loop holds
exactly `wordsThatFit chunkSize` words (valid configuration, sufficient
fuel). -/
theorem chunkWindowsGo_dropLast_length (cfg : ChunkConfig)
    (hov : cfg.overlap < cfg.chunkSize) :
    ∀ (fuel : Nat) (ws : List String), ws.length ≤ fuel →
      ∀ w ∈ (chunkWindowsGo cfg fuel ws).dropLast,
        w.length = wordsThatFit cfg.chunkSize := by
  have hS : 0 < cfg.chunkSize := by omega
  have hfit1 : 1 ≤ wordsThatFit cfg.chunkSize := wordsThatFit_pos _ hS
  have hmaxfit : max (wordsThatFit cfg.chunkSize) 1 =
      wordsThatFit cfg.chunkSize := Nat.max_eq_left hfit1
  have how : overlapWords cfg.overlap < wordsThatFit cfg.chunkSize :=
    overlapWords_lt_fit hov
  intro fuel
  induction fuel with
  | zero =>
    intro ws hlen w hw
    cases ws with
    | nil => simp [chunkWindowsGo] at hw
    | cons x rest => simp at hlen
  | succ fuel ih =>
    intro ws hlen w hw
    cases ws with
    | nil => simp [chunkWindowsGo] at hw
    | cons x rest =>
      rw [chunkWindowsGo] at hw
      by_cases hle : (x :: rest).length ≤ max (wordsThatFit cfg.chunkSize) 1
      · rw [if_pos hle] at hw
        simp at hw
      · rw [if_neg hle] at hw
        rw [hmaxfit] at hw hle
        have hadv1 : 1 ≤ max (wordsThatFit cfg.chunkSize -
            overlapWords cfg.overlap) 1 := Nat.le_max_right _ _
        have hadvfit : max (wordsThatFit cfg.chunkSize -
            overlapWords cfg.overlap) 1 ≤ wordsThatFit cfg.chunkSize :=
          max_le (Nat.sub_le _ _) hfit1
        have hlt : wordsThatFit cfg.chunkSize < (x :: rest).length :=
          Nat.lt_of_not_le hle
        have hdl : ((x :: rest).drop (max (wordsThatFit cfg.chunkSize -
            overlapWords cfg.overlap) 1)).length = (x :: rest).length -
            max (wordsThatFit cfg.chunkSize - overlapWords cfg.overlap) 1 :=
          List.length_drop _ _
        have hdrop_ne : (x :: rest).drop (max (wordsThatFit cfg.chunkSize -
            overlapWords cfg.overlap) 1) ≠ [] := by
          apply List.ne_nil_of_length_pos
          rw [hdl]
          exact Nat.sub_pos_of_lt (lt_of_le_of_lt hadvfit hlt)
        have hdrop_len : ((x :: rest).drop (max (wordsThatFit cfg.chunkSize -
            overlapWords cfg.overlap) 1)).length ≤ fuel := by
          rw [hdl]
          have hs : (x :: rest).length -
              max (wordsThatFit cfg.chunkSize - overlapWords cfg.overlap) 1 ≤
              (x :: rest).length - 1 :=
            Nat.sub_le_sub_left hadv1 _
          have hlen1 : (x :: rest).length = rest.length + 1 := by simp
          rw [hlen1] at hs hlen ⊢
          omega
        have hrec_ne : chunkWindowsGo cfg fuel
            ((x :: rest).drop (max (wordsThatFit cfg.chunkSize -
              overlapWords cfg.overlap) 1)) ≠ [] :=
          chunkWindowsGo_ne_nil cfg fuel _ hdrop_ne hdrop_len
        rw [dropLast_cons_ne _ hrec_ne] at hw
        rcases List.mem_cons.mp hw with hweq | hwmem
        · rw [hweq, List.length_take]
          omega
        · exact ih _ hdrop_len w hwmem

/-- The chunk records are as long as the window list. -/
theorem mkChunks_length : ∀ (l : List (List String)) (i : Nat),
    (mkChunks l i).length = l.length := by
  intro l
  induction l with
  | nil => intro i; rfl
  | cons w rest ih => intro i; simp [mkChunks, ih]

/-- Positions of the chunk records are consecutive from the start index. -/
theorem mkChunks_positions : ∀ (l : List (List String)) (i : Nat),
    (mkChunks l i).map TextChunk.position = List.range' i l.length := by
  intro l
  induction l with
  | nil => intro i; rfl
  | cons w rest ih =>
    intro i
    simp only [mkChunks, List.map_cons, List.length_cons, List.range'_succ]
    rw [ih]

/-- Token estimate of each non-final chunk record comes from the word
count of a non-final window. -/
theorem mkChunks_dropLast_tokens : ∀ (l : List (List String)) (i : Nat),
    ∀ c ∈ (mkChunks l i).dropLast,
      ∃ w ∈ l.dropLast, c.tokens = estimateTokensOfWords w.length := by
  intro l
  induction l with
  | nil => intro i c hc; simp [mkChunks] at hc
  | cons w rest ih =>
    intro i c hc
    cases rest with
    | nil => simp [mkChunks] at hc
    | cons w2 t =>
      have hne : mkChunks (w2 :: t) (i + 1) ≠ [] := by simp [mkChunks]
      rw [show mkChunks (w :: w2 :: t) i =
          { content := joinWords w, position := i,
            tokens := estimateTokensOfWords w.length } ::
            mkChunks (w2 :: t) (i + 1) from rfl,
        dropLast_cons_ne _ hne] at hc
      rcases List.mem_cons.mp hc with hceq | hcmem
      · refine ⟨w, ?_, by rw [hceq]⟩
        rw [dropLast_cons_ne w (by simp)]
        exact List.mem_cons_self w _
      · rcases ih (i + 1) c hcmem with ⟨w', hw', htok⟩
        refine ⟨w', ?_, htok⟩
        rw [dropLast_cons_ne w (by simp)]
        exact List.mem_cons_of_mem w hw'

/-- C10 (spec-modelled): for a valid configuration, the positions of the
produced chunks form the contiguous sequence `0..n-1`, and every chunk
except the last has a token estimate between `minChunkSize` and
`chunkSize`. -/
theorem c10_chunk_positions_and_bounds (cfg : ChunkConfig) (text : String)
    (chunks : List TextChunk) (hov : cfg.overlap < cfg.chunkSize)
    (hmin : cfg.minChunkSize < cfg.chunkSize)
    (hok : chunkText cfg text = .ok chunks) :
    chunks.map TextChunk.position = List.range chunks.length ∧
    ∀ c ∈ chunks.dropLast,
      cfg.minChunkSize ≤ c.tokens ∧ c.tokens ≤ cfg.chunkSize := by
  unfold chunkText at hok
  by_cases hempty : (splitWords text).isEmpty
  · rw [if_pos hempty] at hok
    exact absurd hok (by simp)
  · rw [if_neg hempty] at hok
    have hchunks : mkChunks (chunkWindows cfg (splitWords text)) 0 =
        chunks := by
      cases hok
      rfl
    constructor
    · rw [← hchunks, mkChunks_positions, mkChunks_length,
        List.range_eq_range']
    · intro c hc
      rw [← hchunks] at hc
      rcases mkChunks_dropLast_tokens _ 0 c hc with ⟨w, hw, htok⟩
      have hwlen : w.length = wordsThatFit cfg.chunkSize :=
        chunkWindowsGo_dropLast_length cfg hov (splitWords text).length
          (splitWords text) le_rfl w hw
      rw [htok, hwlen]
      exact ⟨le_trans (by omega) (estimate_fit_ge cfg.chunkSize),
        estimate_fit_le cfg.chunkSize⟩

/-- C10 witness data: a valid configuration. -/
def c10Config : ChunkConfig := { chunkSize := 13, overlap := 3, minChunkSize := 5 }

/-- C10 witness data: a thirteen-word text producing two chunks. -/
def c10Text : String := "a b c d e f g h i j k l m"

/-- C10 witness: the hypotheses hold for the concrete configuration and
text, and the conclusion follows. -/
theorem c10_chunk_positions_and_bounds_witness :
    (c10Config.overlap < c10Config.chunkSize ∧
     c10Config.minChunkSize < c10Config.chunkSize ∧
     chunkText c10Config c10Text =
       .ok [{ content := "a b c d e f g h i j", position := 0, tokens := 13 },
            { content := "i j k l m", position := 1, tokens := 6 }]) ∧
    ([{ content := "a b c d e f g h i j", position := 0, tokens := 13 },
      { content := "i j k l m", position := 1, tokens := 6 }].map
        TextChunk.position =
      List.range ([{ content := "a b c d e f g h i j", position := 0,
                     tokens := 13 },
                   { content := "i j k l m", position := 1,
                     tokens := 6 }] : List TextChunk).length ∧
     ∀ c ∈ ([{ content := "a b c d e f g h i j", position := 0,
               tokens := 13 },
             { content := "i j k l m", position := 1,
               tokens := 6 }] : List TextChunk).dropLast,
       c10Config.minChunkSize ≤ c.tokens ∧ c.tokens ≤ c10Config.chunkSize) :=
  ⟨⟨by decide, by decide, by decide⟩,
    c10_chunk_positions_and_bounds c10Config c10Text _ (by decide) (by decide)
      (by decide)⟩

end ContextAI
